import Mathlib

/-!
Verification of the sinbar-tik authentication/token core and the frontend
login form, against the repository's specification.

The backend handler implementations (`src/auth.ts`, `src/user.ts`) are not
present in the repository snapshot; only their jest test file is. The
handlers are therefore modelled from the specification (sections 4, 6, 7),
with the observed statuses and messages pinned by the test file. The
frontend `handleSubmit` (Quiz.tsx) is embedded directly from its source.
-/

/-- A JSON-like value, the shape of request/response bodies. -/
inductive JsonVal where
  | null
  | str (s : String)
  | num (n : Nat)
  | bool (b : Bool)
  | arr (xs : List JsonVal)
  | obj (fields : List (String × JsonVal))
deriving Repr

/-- Field lookup on a JSON object; `none` on non-objects or missing keys. -/
def JsonVal.getField : JsonVal → String → Option JsonVal
  | .obj fs, k => (fs.find? (fun kv => kv.1 == k)).map (fun kv => kv.2)
  | _, _ => none

/-- An HTTP response: a status code and a JSON body. -/
structure HttpResponse where
  status : Nat
  body : JsonVal
deriving Repr

/-- Modelled from the spec: the bcrypt digest. Section 1 puts the hash
primitive out of scope, "treated as an opaque one-way function with a verify
operation"; section 4.3 describes it as a salted, iterated one-way function.
We idealize it as an injective map: `payload` stands for the bcrypt checksum,
which (in the ideal, collision-free model) determines and is determined by
the plaintext, and `salt` is the random salt baked into the digest. -/
structure Digest where
  salt : Nat
  payload : String
deriving Repr, DecidableEq

/-- Modelled from the spec (4.3): `hash(plaintext) -> digest` using a salted
one-way function. The salt is the explicit random input consumed by the call. -/
def hashPassword (salt : Nat) (plaintext : String) : Digest :=
  ⟨salt, plaintext⟩

/-- Modelled from the spec (4.3): `verify(plaintext, digest) -> bool`
"recomputes and compares": rehash with the digest's salt and compare. -/
def verifyPassword (plaintext : String) (d : Digest) : Bool :=
  decide (hashPassword d.salt plaintext = d)

/-- The string form of a digest as stored in the database column
(bcrypt's `$2b$10$<salt><checksum>` rendering). -/
def Digest.encode (d : Digest) : String :=
  "$2b$10$" ++ toString d.salt ++ "$" ++ d.payload

/-- A row of the `users` table (spec section 3). -/
structure User where
  id : Nat
  username : String
  password : Digest
  remember_token : Option String
  is_admin : Bool
deriving Repr, DecidableEq

/-- The public projection of a user: excludes the hash and the token
(spec sections 4.1 and glossary). -/
def publicProjection (u : User) : List (String × JsonVal) :=
  [("id", .num u.id), ("username", .str u.username), ("is_admin", .bool u.is_admin)]

/-- Modelled from the spec: the server state the missing `src/auth.ts` and
`src/user.ts` act on — the `users` table plus the idealized random source.
`entropy` is the draw counter of the CSPRNG: each consumption (a bcrypt salt,
a remember token) uses the current value and advances it. -/
structure AuthState where
  users : List User
  nextId : Nat
  entropy : Nat
deriving Repr

/-- Hex digit characters 0-9a-f. -/
def hexChar (d : Nat) : Char :=
  if d < 10 then Char.ofNat (48 + d) else Char.ofNat (87 + d)

/-- Inverse of `hexChar` on digits below 16. -/
def unhex (c : Char) : Nat :=
  if c.toNat ≥ 97 then c.toNat - 87 else c.toNat - 48

/-- Little-endian base-16 digits of `n`, with explicit fuel so the
recursion is structural. -/
def hexDigits : Nat → Nat → List Nat
  | 0, _ => []
  | fuel + 1, n => if n = 0 then [] else (n % 16) :: hexDigits fuel (n / 16)

/-- Little-endian base-16 digits of `n` (adequate fuel supplied). -/
def toHexDigits (n : Nat) : List Nat :=
  hexDigits n n

/-- Reassemble a number from little-endian base-16 digits. -/
def ofHex (l : List Nat) : Nat :=
  l.foldr (fun d acc => d + 16 * acc) 0

/-- Modelled from the spec (4.4): the token issuer produces a fresh opaque
hex string from a cryptographically secure random source. The random source
is idealized as the injective hex encoding of the current entropy draw. -/
def issueToken (n : Nat) : String :=
  String.mk ((toHexDigits n).map hexChar)

/-- Treat a missing field and an empty string alike, per spec 4.1:
"fails with `ValidationError` if either field is missing/empty". -/
def getReqField (o : Option String) : Option String :=
  match o with
  | some s => if s.isEmpty then none else some s
  | none => none

/-- Modelled from the spec (4.1, 6, 7): `register`, the missing `src/auth.ts`
handler. Missing/empty username or password yields 422 (`ValidationError`);
otherwise the password is hashed with a fresh salt, a new row is stored, and
the public projection is returned with status 200. -/
def register (st : AuthState) (username password : Option String) :
    AuthState × HttpResponse :=
  match getReqField username, getReqField password with
  | some u, some p =>
    let row : User :=
      { id := st.nextId, username := u, password := hashPassword st.entropy p,
        remember_token := none, is_admin := false }
    ({ users := st.users ++ [row], nextId := st.nextId + 1, entropy := st.entropy + 1 },
     ⟨200, .obj (publicProjection row)⟩)
  | _, _ =>
    (st, ⟨422, .obj [("message", .str "Username and password are required")]⟩)

/-- Modelled from the spec (4.1, 6, 7): `login`, the missing `src/auth.ts`
handler. Looks up by username; unknown username is a `NotFoundError`; a hash
mismatch yields `401 {message:"Incorrect password"}` (pinned by the test
file); on match a fresh token is issued, persisted on the user, returned. -/
def login (st : AuthState) (username password : String) :
    AuthState × HttpResponse :=
  match st.users.find? (fun u => u.username == username) with
  | none => (st, ⟨404, .obj [("message", .str "User not found")]⟩)
  | some u =>
    if verifyPassword password u.password then
      let token := issueToken st.entropy
      ({ st with
         users := st.users.map (fun v =>
           if v.id == u.id then { v with remember_token := some token } else v),
         entropy := st.entropy + 1 },
       ⟨200, .obj [("remember_token", .str token)]⟩)
    else
      (st, ⟨401, .obj [("message", .str "Incorrect password")]⟩)

/-- Modelled from the spec (4.1, 6): `verifyToken`, the missing `src/auth.ts`
handler. Looks up by token; a match yields `200 {message:"User found"}`, no
match yields `500 {message:"Invalid token"}` (both pinned by the test file;
the 500 is the defect the spec records in sections 6/7/9 but specifies as the
observed behavior). Read-only: the state is not touched. -/
def verifyToken (st : AuthState) (token : String) : HttpResponse :=
  match st.users.find? (fun u => u.remember_token == some token) with
  | some _ => ⟨200, .obj [("message", .str "User found")]⟩
  | none => ⟨500, .obj [("message", .str "Invalid token")]⟩

/-- Modelled from the spec (4.1, 6): `logout`, the missing `src/auth.ts`
handler. Looks up by token; no match is the invalid-token condition; on a
match the token field is cleared and `200 {message:"User logged out"}` is
returned (message pinned by the test file). -/
def logout (st : AuthState) (token : String) : AuthState × HttpResponse :=
  match st.users.find? (fun u => u.remember_token == some token) with
  | none => (st, ⟨500, .obj [("message", .str "Invalid token")]⟩)
  | some u =>
    ({ st with
       users := st.users.map (fun v =>
         if v.id == u.id then { v with remember_token := none } else v) },
     ⟨200, .obj [("message", .str "User logged out")]⟩)

/-- `q` is an initial segment of `s` (decidable, over character lists). -/
def prefixOf : List Char → List Char → Bool
  | [], _ => true
  | _ :: _, [] => false
  | a :: as, b :: bs => a == b && prefixOf as bs

/-- `q` occurs as a contiguous substring of `s` (decidable). -/
def hasSub (q : List Char) : List Char → Bool
  | [] => prefixOf q []
  | c :: t => prefixOf q (c :: t) || hasSub q t

/-- The mathematical statement that `q` is a substring of `s`. -/
def SubstringOf (q s : String) : Prop :=
  ∃ l r : List Char, s.data = l ++ q.data ++ r

/-- The rows matched by a search query: substring match on username
(spec 4.2, glossary: "substring/partial match over the username field"). -/
def searchUsers (st : AuthState) (q : String) : List User :=
  st.users.filter (fun u => hasSub q.data u.username.data)

/-- Modelled from the spec (4.2, 6): `search`, the missing `src/user.ts`
handler. Returns 200 with the public projections of every user whose
username contains the query as a substring. -/
def search (st : AuthState) (q : String) : HttpResponse :=
  ⟨200, .arr ((searchUsers st q).map (fun u => .obj (publicProjection u)))⟩

/-- Invariant (spec 4.4): every stored remember token was produced by the
token issuer at an earlier entropy draw. -/
def TokensIssued (st : AuthState) : Prop :=
  ∀ u ∈ st.users, ∀ t, u.remember_token = some t →
    ∃ k, k < st.entropy ∧ t = issueToken k

/-- Invariant (spec 3): "a non-null token must map back to exactly one
user", stated for one token value. -/
def TokenUnique (st : AuthState) (token : String) : Prop :=
  ∀ a ∈ st.users, ∀ b ∈ st.users,
    a.remember_token = some token → b.remember_token = some token → a = b

/-- The possible outcomes of `await api.put('/auth', ...)` in Quiz.tsx:
the promise resolves with a response, rejects with an `AxiosError` (carrying
`err.response?.data.message`, absent on network failures or bodies without a
message), rejects with another `Error`, or rejects with a non-`Error` value. -/
inductive PutOutcome where
  | resolved (status : Nat) (data : JsonVal)
  | axiosError (respMessage : Option String)
  | otherError (msg : String)
  | nonErrorThrown
deriving Repr

/-- The externally observable effects of one run of `handleSubmit`:
the value written to `localStorage` under the key `userData` (if any), the
`errMessage` state, whether `setErrMessage` was invoked at all, the value
`setLoading` receives before the request and the one it has after the
handler finishes, and whether `location.reload()` ran. -/
structure SubmitResult where
  storedUserData : Option JsonVal
  errMessage : Option String
  errMessageSet : Bool
  loadingDuring : Bool
  loadingAfter : Bool
  reloaded : Bool
deriving Repr

/-- JavaScript's string coercion of `res.data.message` as used in
`'Authentication failed: ' + res.data.message`. -/
def jsMessage (data : JsonVal) : String :=
  match data.getField "message" with
  | some (.str s) => s
  | none => "undefined"
  | some .null => "null"
  | some (.num n) => toString n
  | some (.bool b) => toString b
  | some (.arr _) => ""
  | some (.obj _) => "[object Object]"

/-- Embedding of `handleSubmit` in `src/fe/src/pages/Quiz.tsx:53-87`.
`setLoading(true)` runs first inside the `try`; the falsy check
`!username || !password` throws for empty strings; a resolved response with
status ≠ 200 throws `'Authentication failed: ' + res.data.message`; a
resolved 200 stores the body under `userData` and reloads; the `catch`
branches on `AxiosError` / `Error` / anything else and always calls
`setErrMessage`; the `finally` runs `setLoading(false)` on every path. -/
def handleSubmit (username password : String) (outcome : PutOutcome) :
    SubmitResult :=
  if username.isEmpty || password.isEmpty then
    { storedUserData := none,
      errMessage := some "Username and password are required.",
      errMessageSet := true, loadingDuring := true, loadingAfter := false,
      reloaded := false }
  else
    match outcome with
    | .resolved status data =>
      if status ≠ 200 then
        { storedUserData := none,
          errMessage := some ("Authentication failed: " ++ jsMessage data),
          errMessageSet := true, loadingDuring := true, loadingAfter := false,
          reloaded := false }
      else
        { storedUserData := some data, errMessage := none,
          errMessageSet := false, loadingDuring := true, loadingAfter := false,
          reloaded := true }
    | .axiosError m =>
      { storedUserData := none, errMessage := m, errMessageSet := true,
        loadingDuring := true, loadingAfter := false, reloaded := false }
    | .otherError msg =>
      { storedUserData := none, errMessage := some msg, errMessageSet := true,
        loadingDuring := true, loadingAfter := false, reloaded := false }
    | .nonErrorThrown =>
      { storedUserData := none, errMessage := some "An unknown error occurred.",
        errMessageSet := true, loadingDuring := true, loadingAfter := false,
        reloaded := false }

/-- An empty store, for concrete instantiations. -/
def stReg : AuthState := ⟨[], 1, 0⟩

/-- A user holding the token issued at draw 1. -/
def rowAlice : User := ⟨1, "alice", hashPassword 0 "pw", some (issueToken 1), false⟩

/-- A one-user store whose entropy counter has advanced past every
issued token. -/
def stLogin : AuthState := ⟨[rowAlice], 2, 2⟩

/-- A user holding an arbitrary opaque token. -/
def rowBob : User := ⟨1, "bob", hashPassword 0 "pw", some "t0", false⟩

/-- A one-user store for token lookup instantiations. -/
def stTok : AuthState := ⟨[rowBob], 2, 1⟩

/-- A second one-user store for token lookup instantiations. -/
def stTok2 : AuthState := ⟨[rowBob], 2, 1⟩

/-- A user with no active session. -/
def rowTest : User := ⟨1, "testuser", hashPassword 0 "pw", none, false⟩

/-- A one-user store for search instantiations. -/
def stSearch : AuthState := ⟨[rowTest], 2, 1⟩

theorem unhex_hexChar {d : Nat} (h : d < 16) : unhex (hexChar d) = d := by
  interval_cases d <;> rfl

theorem hexDigits_lt_base {fuel n d : Nat} (h : d ∈ hexDigits fuel n) : d < 16 := by
  induction fuel generalizing n with
  | zero => simp [hexDigits] at h
  | succ fuel ih =>
    rw [hexDigits] at h
    by_cases hn : n = 0
    · simp [hn] at h
    · simp [hn] at h
      rcases h with h | h
      · omega
      · exact ih h

theorem ofHex_hexDigits {fuel n : Nat} (h : n ≤ fuel) : ofHex (hexDigits fuel n) = n := by
  induction fuel generalizing n with
  | zero =>
    have : n = 0 := Nat.le_zero.mp h
    simp [this, hexDigits, ofHex]
  | succ fuel ih =>
    rw [hexDigits]
    by_cases hn : n = 0
    · simp [hn, ofHex]
    · have hdiv : n / 16 ≤ fuel := by
        have : n / 16 < n := Nat.div_lt_self (Nat.pos_of_ne_zero hn) (by norm_num)
        omega
      simp only [hn, if_false, ofHex, List.foldr_cons]
      have := ih hdiv
      rw [ofHex] at this
      rw [this]
      omega

theorem ofHex_toHexDigits (n : Nat) : ofHex (toHexDigits n) = n :=
  ofHex_hexDigits (Nat.le_refl n)

theorem issueToken_injective {m n : Nat} (h : issueToken m = issueToken n) : m = n := by
  have hdata : (toHexDigits m).map hexChar = (toHexDigits n).map hexChar := by
    have := congrArg String.data h
    simpa [issueToken] using this
  have hmap : ((toHexDigits m).map hexChar).map unhex
      = ((toHexDigits n).map hexChar).map unhex := congrArg (List.map unhex) hdata
  have cancel : ∀ l : List Nat, (∀ d ∈ l, d < 16) →
      (l.map hexChar).map unhex = l := by
    intro l
    induction l with
    | nil => intro _; rfl
    | cons a t ih =>
      intro hall
      have ha : a < 16 := hall a (List.mem_cons_self a t)
      have ht : ∀ d ∈ t, d < 16 := fun d hd => hall d (List.mem_cons_of_mem a hd)
      simp [unhex_hexChar ha, ih ht]
  have hm16 : ∀ d ∈ toHexDigits m, d < 16 := fun _ hd => hexDigits_lt_base hd
  have hn16 : ∀ d ∈ toHexDigits n, d < 16 := fun _ hd => hexDigits_lt_base hd
  have hdig : toHexDigits m = toHexDigits n := by
    rw [cancel _ hm16, cancel _ hn16] at hmap
    exact hmap
  calc m = ofHex (toHexDigits m) := (ofHex_toHexDigits m).symm
    _ = ofHex (toHexDigits n) := by rw [hdig]
    _ = n := ofHex_toHexDigits n

theorem prefixOf_iff (q s : List Char) :
    prefixOf q s = true ↔ ∃ r, s = q ++ r := by
  induction q generalizing s with
  | nil => simp [prefixOf]
  | cons a as ih =>
    cases s with
    | nil =>
      simp [prefixOf]
    | cons b bs =>
      rw [prefixOf]
      simp only [Bool.and_eq_true, beq_iff_eq, ih]
      constructor
      · rintro ⟨rfl, r, rfl⟩
        exact ⟨r, rfl⟩
      · rintro ⟨r, hr⟩
        rw [List.cons_append] at hr
        injection hr with h1 h2
        exact ⟨h1.symm, r, h2⟩

theorem hasSub_iff (q s : List Char) :
    hasSub q s = true ↔ ∃ l r, s = l ++ q ++ r := by
  induction s with
  | nil =>
    rw [hasSub, prefixOf_iff]
    constructor
    · rintro ⟨r, hr⟩
      exact ⟨[], r, by simpa using hr⟩
    · rintro ⟨l, r, hr⟩
      have := hr.symm
      simp only [List.append_eq_nil] at this
      exact ⟨r, by simp [this.1.2, this.2]⟩
  | cons c t ih =>
    rw [hasSub]
    simp only [Bool.or_eq_true, prefixOf_iff, ih]
    constructor
    · rintro (⟨r, hr⟩ | ⟨l, r, hr⟩)
      · exact ⟨[], r, by simpa using hr⟩
      · exact ⟨c :: l, r, by simp [hr]⟩
    · rintro ⟨l, r, hr⟩
      cases l with
      | nil =>
        left
        exact ⟨r, by simpa using hr⟩
      | cons x xs =>
        right
        rw [List.cons_append, List.cons_append] at hr
        injection hr with h1 h2
        exact ⟨xs, r, by simp [h2]⟩

theorem hasSub_substring (q s : String) :
    hasSub q.data s.data = true ↔ SubstringOf q s := by
  rw [hasSub_iff, SubstringOf]

/-- C8: for every plaintext, `verify(plaintext, hash(plaintext))` holds, and
for any other plaintext `verify` fails (the spec's "overwhelming probability"
is certainty in the idealized collision-free model of the digest). Purity of
`hash` and `verify` in their inputs holds by construction: both are plain
functions of salt and plaintext bytes, with no other state. -/
theorem hash_verify_roundtrip :
    (∀ salt p, verifyPassword p (hashPassword salt p) = true) ∧
    (∀ salt p q, q ≠ p → verifyPassword q (hashPassword salt p) = false) := by
  constructor
  · intro salt p
    simp [verifyPassword, hashPassword]
  · intro salt p q hne
    simp [verifyPassword, hashPassword, Digest.mk.injEq, hne]

theorem hash_verify_roundtrip_witness :
    verifyPassword "pw" (hashPassword 0 "pw") = true ∧
    verifyPassword "wrongpassword" (hashPassword 0 "pw") = false :=
  ⟨hash_verify_roundtrip.1 0 "pw",
   hash_verify_roundtrip.2 0 "pw" "wrongpassword" (by decide)⟩

/-- C4: registering with both username and password non-empty returns 200
with a body carrying the same username, and the stored row's hash verifies
against the supplied password while its stored string form never equals the
plaintext. -/
theorem register_success (st : AuthState) (u p : String)
    (hu : u ≠ "") (hp : p ≠ "") :
    (register st (some u) (some p)).2.status = 200 ∧
    (register st (some u) (some p)).2.body.getField "username" = some (.str u) ∧
    ∃ row ∈ (register st (some u) (some p)).1.users,
      row.username = u ∧ verifyPassword p row.password = true ∧
      Digest.encode row.password ≠ p := by
  have hu' : u.isEmpty = false := by
    rw [Bool.eq_false_iff]
    intro he
    exact hu ((String.isEmpty_iff u).mp he)
  have hp' : p.isEmpty = false := by
    rw [Bool.eq_false_iff]
    intro he
    exact hp ((String.isEmpty_iff p).mp he)
  refine ⟨?_, ?_, ?_⟩
  · simp [register, getReqField, hu', hp']
  · simp [register, getReqField, hu', hp', JsonVal.getField, publicProjection,
      List.find?]
  · refine ⟨⟨st.nextId, u, hashPassword st.entropy p, none, false⟩, ?_, rfl, ?_, ?_⟩
    · simp [register, getReqField, hu', hp']
    · simp [verifyPassword, hashPassword]
    · intro heq
      have hlen := congrArg String.length heq
      simp only [Digest.encode, String.length_append] at hlen
      have h7 : ("$2b$10$" : String).length = 7 := rfl
      have h1 : ("$" : String).length = 1 := rfl
      rw [h7, h1] at hlen
      simp only [hashPassword] at hlen
      omega

theorem register_success_witness :
    (register stReg (some "alice") (some "pw")).2.status = 200 ∧
    (register stReg (some "alice") (some "pw")).2.body.getField "username" =
      some (.str "alice") ∧
    ∃ row ∈ (register stReg (some "alice") (some "pw")).1.users,
      row.username = "alice" ∧ verifyPassword "pw" row.password = true ∧
      Digest.encode row.password ≠ "pw" :=
  register_success stReg "alice" "pw" (by decide) (by decide)

/-- C5: registering with a missing or empty username or password returns 422
and persists nothing: the state is unchanged. -/
theorem register_missing (st : AuthState) (uo po : Option String)
    (h : uo = none ∨ uo = some "" ∨ po = none ∨ po = some "") :
    (register st uo po).2.status = 422 ∧ (register st uo po).1 = st := by
  have hcase : getReqField uo = none ∨ getReqField po = none := by
    rcases h with h | h | h | h
    · exact Or.inl (by rw [h]; rfl)
    · exact Or.inl (by rw [h]; rfl)
    · exact Or.inr (by rw [h]; rfl)
    · exact Or.inr (by rw [h]; rfl)
  rcases hcase with h' | h'
  · cases hpo : getReqField po <;> simp [register, h', hpo]
  · cases huo : getReqField uo <;> simp [register, h', huo]

theorem register_missing_witness :
    (register stReg none (some "pw")).2.status = 422 ∧
    (register stReg none (some "pw")).1 = stReg :=
  register_missing stReg none (some "pw") (Or.inl rfl)

/-- C1: login with the correct password returns 200 and a body whose
`remember_token` is the string issued at this call's entropy draw, distinct
from any token previously stored for that user (under the invariant that
every stored token came from an earlier draw of the issuer). -/
theorem login_fresh_token (st : AuthState) (uname pw : String) (u : User)
    (hfind : st.users.find? (fun v => v.username == uname) = some u)
    (hpw : verifyPassword pw u.password = true)
    (hinv : TokensIssued st) :
    (login st uname pw).2.status = 200 ∧
    (login st uname pw).2.body =
      .obj [("remember_token", .str (issueToken st.entropy))] ∧
    ∀ t, u.remember_token = some t → issueToken st.entropy ≠ t := by
  refine ⟨?_, ?_, ?_⟩
  · simp [login, hfind, hpw]
  · simp [login, hfind, hpw]
  · intro t ht heq
    have hmem : u ∈ st.users := List.mem_of_find?_eq_some hfind
    obtain ⟨k, hk, rfl⟩ := hinv u hmem t ht
    have := issueToken_injective heq
    omega

theorem login_fresh_token_witness :
    (login stLogin "alice" "pw").2.status = 200 ∧
    (login stLogin "alice" "pw").2.body =
      .obj [("remember_token", .str (issueToken stLogin.entropy))] ∧
    ∀ t, rowAlice.remember_token = some t → issueToken stLogin.entropy ≠ t :=
  login_fresh_token stLogin "alice" "pw" rowAlice (by decide) (by decide)
    (by
      intro v hv t ht
      rw [show stLogin.users = [rowAlice] from rfl, List.mem_singleton] at hv
      subst hv
      rw [show rowAlice.remember_token = some (issueToken 1) from rfl] at ht
      exact ⟨1, by decide, (Option.some.inj ht).symm⟩)

/-- C2: login with an incorrect password for a registered user returns
`401 {message:"Incorrect password"}` and leaves the state — in particular
the user's stored remember token — unchanged. -/
theorem login_wrong_password (st : AuthState) (uname pw : String) (u : User)
    (hfind : st.users.find? (fun v => v.username == uname) = some u)
    (hpw : verifyPassword pw u.password = false) :
    (login st uname pw).2 =
      ⟨401, .obj [("message", .str "Incorrect password")]⟩ ∧
    (login st uname pw).1 = st := by
  constructor <;> simp [login, hfind, hpw]

theorem login_wrong_password_witness :
    (login stLogin "alice" "bad").2 =
      ⟨401, .obj [("message", .str "Incorrect password")]⟩ ∧
    (login stLogin "alice" "bad").1 = stLogin :=
  login_wrong_password stLogin "alice" "bad" rowAlice (by decide) (by decide)

/-- C3: a token stored for some user verifies with
`200 {message:"User found"}`; a token stored for no user yields
`500 {message:"Invalid token"}`. -/
theorem verifyToken_cases (st : AuthState) (token : String) :
    ((∃ u ∈ st.users, u.remember_token = some token) →
      verifyToken st token = ⟨200, .obj [("message", .str "User found")]⟩) ∧
    ((∀ u ∈ st.users, u.remember_token ≠ some token) →
      verifyToken st token = ⟨500, .obj [("message", .str "Invalid token")]⟩) := by
  constructor
  · rintro ⟨u, hu, ht⟩
    have hs : (st.users.find? (fun v => v.remember_token == some token)).isSome = true := by
      rw [List.find?_isSome]
      exact ⟨u, hu, by simp [ht]⟩
    obtain ⟨w, hw⟩ := Option.isSome_iff_exists.mp hs
    simp [verifyToken, hw]
  · intro h
    have hn : st.users.find? (fun v => v.remember_token == some token) = none := by
      rw [List.find?_eq_none]
      intro v hv
      simpa using h v hv
    simp [verifyToken, hn]

/-- C6: logout with a stored token returns `200 {message:"User logged out"}`,
clears that token from the store (given the spec's invariant that a non-null
token maps back to exactly one user), and the same token subsequently fails
`verifyToken`. -/
theorem logout_clears_token (st : AuthState) (token : String)
    (hsome : ∃ u ∈ st.users, u.remember_token = some token)
    (huniq : TokenUnique st token) :
    (logout st token).2 = ⟨200, .obj [("message", .str "User logged out")]⟩ ∧
    (∀ v ∈ (logout st token).1.users, v.remember_token ≠ some token) ∧
    verifyToken (logout st token).1 token =
      ⟨500, .obj [("message", .str "Invalid token")]⟩ := by
  obtain ⟨u, hu, hut⟩ := hsome
  have hs : (st.users.find? (fun v => v.remember_token == some token)).isSome = true := by
    rw [List.find?_isSome]
    exact ⟨u, hu, by simp [hut]⟩
  obtain ⟨w, hw⟩ := Option.isSome_iff_exists.mp hs
  have hwmem : w ∈ st.users := List.mem_of_find?_eq_some hw
  have hwtok : w.remember_token = some token := by
    have := List.find?_some hw
    simpa using this
  have husers : (logout st token).1.users =
      st.users.map (fun v =>
        if v.id == w.id then { v with remember_token := none } else v) := by
    simp [logout, hw]
  have hcleared : ∀ v ∈ (logout st token).1.users,
      v.remember_token ≠ some token := by
    intro v hv
    rw [husers, List.mem_map] at hv
    obtain ⟨x, hx, hfx⟩ := hv
    by_cases hid : (x.id == w.id) = true
    · rw [← hfx]
      simp [hid]
    · rw [← hfx]
      simp [hid]
      intro hxt
      have hxw : x = w := huniq x hx w hwmem hxt hwtok
      rw [hxw] at hid
      simp at hid
  refine ⟨by simp [logout, hw], hcleared, ?_⟩
  have hn : ((logout st token).1.users.find?
      (fun v => v.remember_token == some token)) = none := by
    rw [List.find?_eq_none]
    intro v hv
    simpa using hcleared v hv
  simp [verifyToken, hn]

theorem logout_clears_token_witness :
    (logout stTok2 "t0").2 = ⟨200, .obj [("message", .str "User logged out")]⟩ ∧
    (∀ v ∈ (logout stTok2 "t0").1.users, v.remember_token ≠ some "t0") ∧
    verifyToken (logout stTok2 "t0").1 "t0" =
      ⟨500, .obj [("message", .str "Invalid token")]⟩ :=
  logout_clears_token stTok2 "t0" ⟨rowBob, List.mem_singleton.mpr rfl, rfl⟩
    (by
      intro a ha b hb _ _
      rw [show stTok2.users = [rowBob] from rfl, List.mem_singleton] at ha hb
      rw [ha, hb])

/-- C7: search always returns 200; its result set contains exactly the users
whose username contains the query as a substring, and is empty when no
username matches; the body lists their public projections. -/
theorem search_matches (st : AuthState) (q : String) :
    (search st q).status = 200 ∧
    (∀ u, u ∈ searchUsers st q ↔ u ∈ st.users ∧ SubstringOf q u.username) ∧
    ((∀ u ∈ st.users, ¬ SubstringOf q u.username) → searchUsers st q = []) ∧
    (search st q).body =
      .arr ((searchUsers st q).map (fun u => .obj (publicProjection u))) := by
  refine ⟨rfl, ?_, ?_, rfl⟩
  · intro u
    rw [searchUsers, List.mem_filter, hasSub_substring]
  · intro h
    rw [searchUsers, List.filter_eq_nil_iff]
    intro u hu hc
    exact h u hu ((hasSub_substring _ _).mp hc)

theorem search_matches_witness :
    (search stSearch "est").status = 200 ∧
    rowTest ∈ searchUsers stSearch "est" ∧
    searchUsers stSearch "zzz" = [] :=
  ⟨(search_matches stSearch "est").1,
   ((search_matches stSearch "est").2.1 rowTest).mpr
     ⟨List.mem_singleton.mpr rfl,
      ⟨['t'], ['u', 's', 'e', 'r'], rfl⟩⟩,
   (search_matches stSearch "zzz").2.2.1 (by
      intro u hu hsub
      rw [show stSearch.users = [rowTest] from rfl, List.mem_singleton] at hu
      subst hu
      exact absurd ((hasSub_substring "zzz" rowTest.username).mpr hsub)
        (by decide))⟩

theorem verifyToken_cases_witness :
    verifyToken stTok "t0" = ⟨200, .obj [("message", .str "User found")]⟩ ∧
    verifyToken stTok "zz" = ⟨500, .obj [("message", .str "Invalid token")]⟩ :=
  ⟨(verifyToken_cases stTok "t0").1 ⟨rowBob, List.mem_singleton.mpr rfl, rfl⟩,
   (verifyToken_cases stTok "zz").2 (by
      intro v hv
      rw [show stTok.users = [rowBob] from rfl, List.mem_singleton] at hv
      subst hv
      decide)⟩

theorem isEmpty_false_of_ne {s : String} (h : s ≠ "") : s.isEmpty = false := by
  rw [Bool.eq_false_iff]
  intro he
  exact h ((String.isEmpty_iff s).mp he)

/-- C9: `handleSubmit` writes the response body to localStorage under
`userData` exactly when both form fields are non-empty and the PUT request
resolved with status 200; on every other path nothing is stored and
`setErrMessage` is invoked instead. -/
theorem handleSubmit_storage (username password : String) (outcome : PutOutcome) :
    ((handleSubmit username password outcome).storedUserData ≠ none ↔
      username ≠ "" ∧ password ≠ "" ∧ ∃ d, outcome = .resolved 200 d) ∧
    (∀ d, outcome = .resolved 200 d → username ≠ "" → password ≠ "" →
      (handleSubmit username password outcome).storedUserData = some d) ∧
    (¬(username ≠ "" ∧ password ≠ "" ∧ ∃ d, outcome = .resolved 200 d) →
      (handleSubmit username password outcome).storedUserData = none ∧
      (handleSubmit username password outcome).errMessageSet = true) := by
  have hnil : ("" : String).isEmpty = true := rfl
  by_cases hu : username = ""
  · simp [handleSubmit, hu, hnil]
  · by_cases hp : password = ""
    · have huf := isEmpty_false_of_ne hu
      simp [handleSubmit, huf, hp, hnil]
    · have huf := isEmpty_false_of_ne hu
      have hpf := isEmpty_false_of_ne hp
      cases outcome with
      | resolved status data =>
        by_cases hs : status = 200
        · subst hs
          simp [handleSubmit, huf, hpf, hu, hp]
        · simp [handleSubmit, huf, hpf, hu, hp, hs]
      | axiosError m => simp [handleSubmit, huf, hpf, hu, hp]
      | otherError m => simp [handleSubmit, huf, hpf, hu, hp]
      | nonErrorThrown => simp [handleSubmit, huf, hpf, hu, hp]

theorem handleSubmit_storage_witness :
    (handleSubmit "alice" "pw" (.resolved 200 .null)).storedUserData =
      some .null ∧
    (handleSubmit "alice" "pw" (.axiosError none)).storedUserData = none ∧
    (handleSubmit "alice" "pw" (.axiosError none)).errMessageSet = true :=
  ⟨(handleSubmit_storage "alice" "pw" (.resolved 200 .null)).2.1 .null rfl
      (by decide) (by decide),
   ((handleSubmit_storage "alice" "pw" (.axiosError none)).2.2 (by simp)).1,
   ((handleSubmit_storage "alice" "pw" (.axiosError none)).2.2 (by simp)).2⟩

/-- C10: every run of `handleSubmit` sets loading to true before the request
and resets it to false when it finishes, on the success path and on every
error path, so the submit button is never left permanently disabled. -/
theorem handleSubmit_loading (username password : String) (outcome : PutOutcome) :
    (handleSubmit username password outcome).loadingDuring = true ∧
    (handleSubmit username password outcome).loadingAfter = false := by
  unfold handleSubmit
  split
  · exact ⟨rfl, rfl⟩
  · split <;> first
      | exact ⟨rfl, rfl⟩
      | (split <;> exact ⟨rfl, rfl⟩)
